import Mathlib

/-!
Verification of the api-gateway authorization core: the topic pattern
matcher (`pkg/permissions/matcher.go`), the credential cache
(`internal/cache/cache.go`), and the middleware decision pipeline
(`internal/gateway/gateway.go`, `authMiddleware`).

The Go code is shallowly embedded: strings are Lean `String`s, Go maps are
association lists with overwrite-on-insert, `time.Time`/`time.Duration`
are `Int` instants/durations (a single `now : Int` parameter stands for
the calls to `time.Now`/`time.Since` inside one operation), and the
external PocketBase client is an oracle record of pure functions.
Methods that may mutate their receiver are embedded in receiver-passing
style, returning the (possibly updated) receiver alongside their result.
-/

namespace ApiGateway

/-- Topic schema, from `matcher.go`: MQTT uses separator `/`, single-level
wildcard `+`, multi-level wildcard `#`; NATS uses `.`, `*`, `>`. -/
inductive SchemaType where
  | MQTT
  | NATS
deriving DecidableEq, Repr

/-- The separator character of a schema (`matcher.go`, `Match`). -/
def separator : SchemaType → Char
  | .MQTT => '/'
  | .NATS => '.'

/-- The multi-level wildcard segment of a schema (`matcher.go`, `matchParts`). -/
def multiWildcard : SchemaType → String
  | .MQTT => "#"
  | .NATS => ">"

/-- The single-level wildcard segment of a schema (`matcher.go`, `matchParts`). -/
def singleWildcard : SchemaType → String
  | .MQTT => "+"
  | .NATS => "*"

/-- Go `strings.Contains(s, needle)` for the single-character needles used
by `DetectSchemaType` (`"*"`, `">"`, `"."`, `"/"`). -/
def containsChar (c : Char) (s : String) : Bool :=
  s.toList.contains c

/-- `matcher.go` `DetectSchemaType`: NATS if the pattern contains `*` or `>`
or contains `.` without `/`; MQTT otherwise. -/
def DetectSchemaType (pattern : String) : SchemaType :=
  if containsChar '*' pattern || containsChar '>' pattern ||
      (containsChar '.' pattern && !containsChar '/' pattern) then
    SchemaType.NATS
  else
    SchemaType.MQTT

/-- Go `strings.Trim(s, cutset)` for a single-character cutset: drop every
leading and trailing occurrence of the character. -/
def trimChar (c : Char) (l : List Char) : List Char :=
  ((l.dropWhile (fun a => a == c)).reverse.dropWhile (fun a => a == c)).reverse

/-- `matcher.go` `normalizePath`: trim `/` from both ends, and for NATS
additionally trim `.` from both ends. -/
def normalizePath (path : String) (st : SchemaType) : String :=
  let l := trimChar '/' path.toList
  match st with
  | .MQTT => l.asString
  | .NATS => (trimChar '.' l).asString

/-- Go `strings.Split(s, sep)` for a single-character separator, on the
character list: the empty input yields one empty field, and `n` occurrences
of the separator yield `n + 1` fields. -/
def splitChar (c : Char) : List Char → List (List Char)
  | [] => [[]]
  | a :: rest =>
    match splitChar c rest with
    | [] => [[]]
    | s :: ss => if a == c then [] :: s :: ss else (a :: s) :: ss

/-- Go `strings.Split(s, sep)` for a single-character separator, on strings. -/
def splitStr (c : Char) (s : String) : List String :=
  (splitChar c s.toList).map List.asString

/-- `matcher.go` `matchParts`: segment-wise recursive comparison.  An empty
pattern matches only the empty path; the multi-level wildcard must be the
last pattern segment and then consumes every remaining path segment; the
single-level wildcard or an exact segment match consumes one segment of
each. -/
def matchParts (st : SchemaType) : List String → List String → Bool
  | [], pathParts => pathParts.isEmpty
  | segment :: restPattern, pathParts =>
    if segment == multiWildcard st then
      restPattern.isEmpty
    else
      match pathParts with
      | [] => false
      | p :: restPath =>
        if segment == singleWildcard st || segment == p then
          matchParts st restPattern restPath
        else
          false

/-- `matcher.go` `Match`: detect the schema from the pattern, normalize
both strings, split on the schema separator, special-case a pattern that
normalizes to exactly `#` or `>` (matches everything), otherwise run
`matchParts`. -/
def Match (pattern path : String) : Bool :=
  let st := DetectSchemaType pattern
  let normalizedPattern := normalizePath pattern st
  let normalizedPath := normalizePath path st
  let patternParts := splitStr (separator st) normalizedPattern
  let pathParts := splitStr (separator st) normalizedPath
  if normalizedPattern == "#" || normalizedPattern == ">" then
    true
  else
    matchParts st patternParts pathParts

/-- `matcher.go` `MapPathToTopic`: drop one leading `/` if present
(Go `strings.TrimPrefix`), and for NATS replace every `/` by `.`. -/
def MapPathToTopic (path : String) (st : SchemaType) : String :=
  let l :=
    match path.toList with
    | '/' :: rest => rest
    | l => l
  match st with
  | .MQTT => l.asString
  | .NATS => (l.map (fun a => if a == '/' then '.' else a)).asString

/-- `matcher.go` `HasPermission`: select the publish list for POST, PUT,
PATCH, DELETE and the subscribe list for every other method, then test the
request path (converted per pattern schema) against each pattern in order,
succeeding on the first match. -/
def HasPermission (path method : String)
    (publishPermissions subscribePermissions : List String) : Bool :=
  let permissions :=
    if method == "POST" || method == "PUT" || method == "PATCH" || method == "DELETE" then
      publishPermissions
    else
      subscribePermissions
  permissions.any (fun pattern =>
    let st := DetectSchemaType pattern
    let topic := MapPathToTopic path st
    Match pattern topic)

/-- `pocketbase` `User` (the fields the decision pipeline reads; the JSON
metadata fields `email`, `created`, `updated`, ... play no role). -/
structure User where
  id : String
  username : String
  roleID : String
  active : Bool
deriving DecidableEq, Repr

/-- `pocketbase` `Role`, with its permission fields already parsed into
string lists (the middleware parses them via `GetPublishPermissions` /
`GetSubscribePermissions`; JSON decoding is out of scope, so roles carry
the parsed lists and the parse-failure branch of the middleware is not
modelled). -/
structure Role where
  id : String
  name : String
  publishPermissions : List String
  subscribePermissions : List String
deriving DecidableEq, Repr

/-- Go map lookup on the association-list model: the value stored under
the first matching key, if any. -/
def mapLookup (m : List (String × α)) (k : String) : Option α :=
  (m.find? (fun p => p.1 == k)).map (fun p => p.2)

/-- Go map insert-or-overwrite on the association-list model: any earlier
binding of the key is dropped, so keys stay distinct and `List.length`
equals Go's `len(map)`. -/
def mapInsert (m : List (String × α)) (k : String) (v : α) : List (String × α) :=
  (k, v) :: m.filter (fun p => !(p.1 == k))

/-- `cache.go` `Cache`: identity map keyed by token key, role map keyed by
role id, the TTL, and the time of the last refresh.  The mutex and the
logger carry no decision-relevant state. -/
structure Cache where
  userCache : List (String × User)
  roleCache : List (String × Role)
  ttl : Int
  lastRefreshTime : Int
deriving DecidableEq, Repr

/-- `cache.go` `GetUserByToken`: read-only lookup of the token key in the
identity map (receiver returned unchanged). -/
def GetUserByToken (c : Cache) (tokenKey : String) : Option User × Cache :=
  (mapLookup c.userCache tokenKey, c)

/-- `cache.go` `GetRoleByID`: read-only lookup of the role id in the role
map (receiver returned unchanged). -/
def GetRoleByID (c : Cache) (id : String) : Option Role × Cache :=
  (mapLookup c.roleCache id, c)

/-- `cache.go` `AddUser`: insert or overwrite the user under the given
token key.  The key is stored exactly as passed in; this variant of the
cache performs no hashing. -/
def AddUser (c : Cache) (tokenKey : String) (user : User) : Cache :=
  { c with userCache := mapInsert c.userCache tokenKey user }

/-- `cache.go` `AddRole`: insert or overwrite the role under the given id. -/
def AddRole (c : Cache) (id : String) (role : Role) : Cache :=
  { c with roleCache := mapInsert c.roleCache id role }

/-- `cache.go` `ClearCache`: replace both maps by empty maps and set the
refresh timestamp to the current instant. -/
def ClearCache (c : Cache) (now : Int) : Cache :=
  { c with userCache := [], roleCache := [], lastRefreshTime := now }

/-- `cache.go` `RefreshIfNeeded`: if `time.Since(lastRefreshTime) > ttl`,
clear the whole cache and return true; otherwise leave it untouched and
return false. -/
def RefreshIfNeeded (c : Cache) (now : Int) : Bool × Cache :=
  if now - c.lastRefreshTime > c.ttl then
    (true, ClearCache c now)
  else
    (false, c)

/-- `cache.go` `BulkLoadUsers`: only counts active users for logging; the
cache itself is left unchanged (users cannot be pre-cached by JWT token). -/
def BulkLoadUsers (c : Cache) (_users : List User) : Cache :=
  c

/-- `cache.go` `BulkLoadRoles`: insert every given role keyed by its id,
in order (a later duplicate id overwrites an earlier one). -/
def BulkLoadRoles (c : Cache) (roles : List Role) : Cache :=
  { c with roleCache := roles.foldl (fun m r => mapInsert m r.id r) c.roleCache }

/-- The pair returned by `cache.go` `GetStats` (`map[string]int` with keys
`"users"` and `"roles"`). -/
structure CacheStats where
  users : Nat
  roles : Nat
deriving DecidableEq, Repr

/-- `cache.go` `GetStats`: point-in-time sizes of the two maps (receiver
returned unchanged). -/
def GetStats (c : Cache) : CacheStats × Cache :=
  ({ users := c.userCache.length, roles := c.roleCache.length }, c)

/-- The PocketBase client (`pocketbase/client.go`), as an oracle of pure
functions: `none` / a `none` result stands for the error return of the
corresponding Go method. -/
structure PB where
  getAllRoles : Option (List Role)
  getAllUsers : Option (List User)
  getUserByToken : String → Option User
  getRoleByID : String → Option Role

/-- One external call to the PocketBase identity service, recorded so that
"no external call is made" is a statement about the embedding. -/
inductive ExtCall where
  | getAllRoles
  | getAllUsers
  | validateToken (token : String)
  | fetchRole (id : String)
deriving DecidableEq, Repr

/-- The reasons recorded by `authMiddleware` when it rejects a request
(`RecordAuthFailure` label together with the HTTP status of `sendError`). -/
inductive DenyReason where
  | missingToken
  | invalidTokenFormat
  | internalError
  | invalidToken
  | roleNotFound
  | insufficientPermission
deriving DecidableEq, Repr

/-- The outcome of `authMiddleware` for one request: forward the request
with the resolved user and role attached, or reject it. -/
inductive Decision where
  | allow (user : User) (role : Role)
  | deny (reason : DenyReason)
deriving DecidableEq, Repr

/-- `gateway.go` `refreshCache`: if `RefreshIfNeeded` cleared the cache,
fetch all roles and all users (each may fail, aborting with an error and
leaving the cache cleared) and bulk-load them.  Returns success flag,
resulting cache, and the external calls made. -/
def refreshCache (pb : PB) (now : Int) (c : Cache) : Bool × Cache × List ExtCall :=
  match RefreshIfNeeded c now with
  | (false, c1) => (true, c1, [])
  | (true, c1) =>
    match pb.getAllRoles with
    | none => (false, c1, [ExtCall.getAllRoles])
    | some roles =>
      match pb.getAllUsers with
      | none => (false, c1, [ExtCall.getAllRoles, ExtCall.getAllUsers])
      | some users =>
        (true, BulkLoadUsers (BulkLoadRoles c1 roles) users,
          [ExtCall.getAllRoles, ExtCall.getAllUsers])

/-- `gateway.go` `authMiddleware`: the per-request decision pipeline.
Input is the raw `Authorization` header, the HTTP method and path, the
cache state, the current instant, and the PocketBase oracle; output is the
decision, the resulting cache state, and the external calls made, in
order.  Mirrors the source: empty header → missing token; header not of
the form `Bearer {token}` → invalid format; cache refresh failure → 500;
identity lookup under `tokenKey` (the raw token when it has at most 8
characters, otherwise its first 8 characters followed by `"..."`), falling
back to external validation and caching under `tokenKey`; role lookup by
the user's role id, falling back to external fetch and caching; finally
the permission check. -/
def authMiddleware (pb : PB) (now : Int) (c : Cache)
    (authHeader method path : String) : Decision × Cache × List ExtCall :=
  if authHeader == "" then
    (Decision.deny DenyReason.missingToken, c, [])
  else
    match splitStr ' ' authHeader with
    | [p0, token] =>
      if p0 == "Bearer" then
        match refreshCache pb now c with
        | (false, c1, calls) => (Decision.deny DenyReason.internalError, c1, calls)
        | (true, c1, calls) =>
          let checkPerm := fun (c' : Cache) (calls' : List ExtCall) (user : User) (role : Role) =>
            if HasPermission path method role.publishPermissions role.subscribePermissions then
              (Decision.allow user role, c', calls')
            else
              (Decision.deny DenyReason.insufficientPermission, c', calls')
          let resolveRole := fun (c' : Cache) (calls' : List ExtCall) (user : User) =>
            match GetRoleByID c' user.roleID with
            | (some role, c'') => checkPerm c'' calls' user role
            | (none, c'') =>
              match pb.getRoleByID user.roleID with
              | none =>
                (Decision.deny DenyReason.roleNotFound, c'',
                  calls' ++ [ExtCall.fetchRole user.roleID])
              | some role =>
                checkPerm (AddRole c'' role.id role)
                  (calls' ++ [ExtCall.fetchRole user.roleID]) user role
          let tokenKey :=
            if 8 < token.toList.length then
              (token.toList.take 8).asString ++ "..."
            else
              token
          match GetUserByToken c1 tokenKey with
          | (some user, c2) => resolveRole c2 calls user
          | (none, c2) =>
            match pb.getUserByToken token with
            | none =>
              (Decision.deny DenyReason.invalidToken, c2,
                calls ++ [ExtCall.validateToken token])
            | some user =>
              resolveRole (AddUser c2 tokenKey user)
                (calls ++ [ExtCall.validateToken token]) user
      else
        (Decision.deny DenyReason.invalidTokenFormat, c, [])
    | _ => (Decision.deny DenyReason.invalidTokenFormat, c, [])

/-- A sample user, role id `"r1"`. -/
def sampleUser : User :=
  { id := "u1", username := "alice", roleID := "r1", active := true }

/-- The sample role of the spec's end-to-end scenario:
publish `["api/v1/devices/+"]`, subscribe `["api/v1/#"]`. -/
def sampleRole : Role :=
  { id := "r1", name := "device-role",
    publishPermissions := ["api/v1/devices/+"],
    subscribePermissions := ["api/v1/#"] }

/-- A freshly refreshed, empty cache (TTL 300, last refresh at instant 0). -/
def emptyCache : Cache :=
  { userCache := [], roleCache := [], ttl := 300, lastRefreshTime := 0 }

/-- A freshly refreshed cache already holding `sampleUser` under token key
`"tok"` and `sampleRole` under `"r1"`. -/
def warmCache : Cache :=
  { userCache := [("tok", sampleUser)], roleCache := [("r1", sampleRole)],
    ttl := 300, lastRefreshTime := 0 }

/-- A PocketBase oracle that validates exactly the tokens `"abc"` and
`"tok"` to `sampleUser` and resolves exactly role id `"r1"`. -/
def samplePB : PB :=
  { getAllRoles := some [sampleRole]
    getAllUsers := some [sampleUser]
    getUserByToken := fun t => if t == "abc" || t == "tok" then some sampleUser else none
    getRoleByID := fun i => if i == "r1" then some sampleRole else none }

/-- Claim C2, counterexample: the claim asserts `Match "+" "" = false`,
but in the code the empty path splits into a single empty segment
(Go `strings.Split("", "/") = [""]`), which the single-level wildcard
matches, so `Match "+" ""` is true. -/
theorem c2_counterexample : ¬ (Match "+" "" = false) := by decide

/-- Claim C2, amended: `Match "+" ""` returns true (the empty path
normalizes to one empty segment, which `+` matches), and `Match "#" ""`
returns true as the claim states. -/
theorem c2_empty_path_wildcards : Match "+" "" = true ∧ Match "#" "" = true := by
  decide

/-- Claim C3: with publish patterns `["api/v1/devices/+"]` and subscribe
patterns `["api/v1/#"]`, a GET of `/api/v1/devices/123/readings` is
allowed, a POST to `/api/v1/devices/123` is allowed, and a POST to
`/api/v1/devices/123/readings` is denied with insufficient permission. -/
theorem c3_end_to_end :
    authMiddleware samplePB 0 warmCache "Bearer tok" "GET" "/api/v1/devices/123/readings"
      = (Decision.allow sampleUser sampleRole, warmCache, []) ∧
    authMiddleware samplePB 0 warmCache "Bearer tok" "POST" "/api/v1/devices/123"
      = (Decision.allow sampleUser sampleRole, warmCache, []) ∧
    authMiddleware samplePB 0 warmCache "Bearer tok" "POST" "/api/v1/devices/123/readings"
      = (Decision.deny DenyReason.insufficientPermission, warmCache, []) := by
  refine ⟨by decide, by decide, by decide⟩

/-- Claim C5: `HasPermission` is an existential OR over the permission
list selected by the method — it returns true exactly when some pattern of
that list matches the converted path — and an empty selected list always
denies. -/
theorem c5_allow_iff_exists_match (path method : String) (pub sub : List String) :
    (HasPermission path method pub sub = true ↔
      ∃ p, p ∈ (if method == "POST" || method == "PUT" || method == "PATCH" ||
                  method == "DELETE" then pub else sub) ∧
        Match p (MapPathToTopic path (DetectSchemaType p)) = true) ∧
    ((if method == "POST" || method == "PUT" || method == "PATCH" ||
        method == "DELETE" then pub else sub) = [] →
      HasPermission path method pub sub = false) := by
  constructor
  · simp [HasPermission, List.any_eq_true]
  · intro h
    simp only [HasPermission]
    rw [h]
    rfl

/-- Witness for C5 at a concrete input: for a GET the selected list is the
subscribe list; with an empty subscribe list the permission check denies
even though the publish list is nonempty. -/
theorem c5_witness :
    ((if ("GET" == "POST" || "GET" == "PUT" || "GET" == "PATCH" ||
        "GET" == "DELETE") then (["api/v1/devices/+"] : List String) else []) = []) ∧
    HasPermission "/a" "GET" ["api/v1/devices/+"] [] = false :=
  ⟨by decide, (c5_allow_iff_exists_match "/a" "GET" ["api/v1/devices/+"] []).2 (by decide)⟩

/-- Claim C6: `RefreshIfNeeded` returns true exactly when the elapsed time
since the last refresh exceeds the TTL; when it returns true both maps
become empty (every key is absent and the stats are zero) and the
timestamp is reset to the current instant; when it returns false the cache
is left untouched. -/
theorem c6_refresh_semantics (c : Cache) (now : Int) :
    (RefreshIfNeeded c now).1 = decide (now - c.lastRefreshTime > c.ttl) ∧
    ((RefreshIfNeeded c now).1 = true →
      (∀ k, (GetUserByToken (RefreshIfNeeded c now).2 k).1 = none) ∧
      (∀ k, (GetRoleByID (RefreshIfNeeded c now).2 k).1 = none) ∧
      (GetStats (RefreshIfNeeded c now).2).1 = { users := 0, roles := 0 } ∧
      (RefreshIfNeeded c now).2.lastRefreshTime = now) ∧
    ((RefreshIfNeeded c now).1 = false → (RefreshIfNeeded c now).2 = c) := by
  by_cases h : now - c.lastRefreshTime > c.ttl
  · simp [RefreshIfNeeded, ClearCache, GetUserByToken, GetRoleByID, GetStats,
      mapLookup, h]
  · simp [RefreshIfNeeded, h]

/-- Witness for C6 at a concrete input: an expired cache holding one user
and one role is cleared, every lookup misses afterwards, and the stats
drop to zero. -/
theorem c6_witness :
    (RefreshIfNeeded warmCache 1000).1 = true ∧
    (GetUserByToken (RefreshIfNeeded warmCache 1000).2 "tok").1 = none ∧
    (GetRoleByID (RefreshIfNeeded warmCache 1000).2 "r1").1 = none ∧
    (GetStats (RefreshIfNeeded warmCache 1000).2).1 = { users := 0, roles := 0 } ∧
    (RefreshIfNeeded warmCache 1000).2.lastRefreshTime = 1000 := by
  have h := (c6_refresh_semantics warmCache 1000).2.1 (by decide)
  exact ⟨by decide, h.1 "tok", h.2.1 "r1", h.2.2.1, h.2.2.2⟩

/-- Claim C9: for any method other than POST, PUT, PATCH and DELETE —
including arbitrary strings — `HasPermission` evaluates only the subscribe
list: the publish list has no influence on the outcome, and the result is
the existential check over the subscribe list. -/
theorem c9_non_write_methods_use_subscribe (method : String)
    (h1 : method ≠ "POST") (h2 : method ≠ "PUT")
    (h3 : method ≠ "PATCH") (h4 : method ≠ "DELETE")
    (path : String) (pub pub' sub : List String) :
    HasPermission path method pub sub = HasPermission path method pub' sub ∧
    HasPermission path method pub sub =
      sub.any (fun pattern =>
        Match pattern (MapPathToTopic path (DetectSchemaType pattern))) := by
  have e1 : (method == "POST") = false := by simp [h1]
  have e2 : (method == "PUT") = false := by simp [h2]
  have e3 : (method == "PATCH") = false := by simp [h3]
  have e4 : (method == "DELETE") = false := by simp [h4]
  simp [HasPermission, e1, e2, e3, e4]

/-- Witness for C9 at a concrete input: an arbitrary unknown method string
ignores the publish list entirely. -/
theorem c9_witness :
    ("FETCH" ≠ "POST") ∧
    (HasPermission "/a/b" "FETCH" ["a/#"] ["x"]
      = HasPermission "/a/b" "FETCH" [] ["x"]) ∧
    HasPermission "/a/b" "FETCH" ["a/#"] ["x"]
      = (["x"] : List String).any (fun pattern =>
          Match pattern (MapPathToTopic "/a/b" (DetectSchemaType pattern))) :=
  ⟨by decide,
    c9_non_write_methods_use_subscribe "FETCH" (by decide) (by decide)
      (by decide) (by decide) "/a/b" ["a/#"] [] ["x"]⟩

/-- Claim C10: the read operations `GetUserByToken`, `GetRoleByID` and
`GetStats` return the cache exactly as it was, for every state and every
argument. -/
theorem c10_reads_preserve_cache (c : Cache) (k : String) :
    (GetUserByToken c k).2 = c ∧ (GetRoleByID c k).2 = c ∧ (GetStats c).2 = c :=
  ⟨rfl, rfl, rfl⟩

/-- Claim C1, code evaluated at the failing input: a raw bearer token of
at most 8 characters (here `"abc"`) is used verbatim as the cache key —
after the middleware caches the validated user, the identity map's key
equals the raw token and looking the cache up under the raw token itself
succeeds.  No digest is ever computed on this path, although the codebase
ships `TokenHasher.HashToken` for exactly that purpose. -/
theorem c1_raw_token_stored_as_key :
    (authMiddleware samplePB 0 emptyCache "Bearer abc" "GET" "/api/v1/devices/1").2.1.userCache
      = [("abc", sampleUser)] ∧
    (GetUserByToken
        (authMiddleware samplePB 0 emptyCache "Bearer abc" "GET" "/api/v1/devices/1").2.1
        "abc").1
      = some sampleUser := by
  refine ⟨by decide, by decide⟩

/-- Claim C4, counterexample: the header `"Bearer "` carries an empty raw
bearer token (the split yields `["Bearer", ""]`), yet the middleware does
not return the missing-token denial: it proceeds to external validation,
makes a `validateToken ""` call, and denies with the invalid-token
reason. -/
theorem c4_counterexample :
    splitStr ' ' "Bearer " = ["Bearer", ""] ∧
    authMiddleware samplePB 0 emptyCache "Bearer " "GET" "/api/v1/devices/1"
      = (Decision.deny DenyReason.invalidToken, emptyCache,
          [ExtCall.validateToken ""]) := by
  refine ⟨by decide, by decide⟩

/-- Claim C4, amended: whenever the `Authorization` header is empty, the
middleware returns the missing-token denial immediately, with the cache
untouched and no external call of any kind. -/
theorem c4_empty_header_denied (pb : PB) (now : Int) (c : Cache)
    (method path : String) :
    authMiddleware pb now c "" method path
      = (Decision.deny DenyReason.missingToken, c, []) := rfl

/-- If the multi-level wildcard occurs anywhere before the last pattern
segment, `matchParts` rejects every path: the recursion either fails
earlier or reaches the wildcard with further pattern segments remaining,
which the code treats as a malformed pattern. -/
theorem matchParts_multi_not_last (st : SchemaType) (pre suf : List String)
    (hsuf : suf ≠ []) :
    ∀ pathParts, matchParts st (pre ++ multiWildcard st :: suf) pathParts = false := by
  induction pre with
  | nil =>
    intro pathParts
    cases suf with
    | nil => exact absurd rfl hsuf
    | cons b bs => simp [matchParts]
  | cons a pre ih =>
    intro pathParts
    simp only [List.cons_append, matchParts]
    by_cases ha : (a == multiWildcard st) = true
    · simp only [ha, if_true]
      cases pre <;> simp
    · simp only [ha, Bool.false_eq_true, if_false]
      cases pathParts with
      | nil => rfl
      | cons p ps =>
        by_cases hb : (a == singleWildcard st || a == p) = true
        · simp only [hb, if_true]
          exact ih ps
        · simp only [hb, Bool.false_eq_true, if_false]

/-- Claim C7: a pattern whose segment list (under its detected schema)
contains the schema's multi-level wildcard anywhere except as the last
segment never matches any path. -/
theorem c7_multi_wildcard_not_last (pattern : String)
    (h : ∃ pre suf, suf ≠ [] ∧
        splitStr (separator (DetectSchemaType pattern))
            (normalizePath pattern (DetectSchemaType pattern))
          = pre ++ multiWildcard (DetectSchemaType pattern) :: suf)
    (path : String) :
    Match pattern path = false := by
  obtain ⟨pre, suf, hsuf, hsplit⟩ := h
  by_cases hsp : (normalizePath pattern (DetectSchemaType pattern) == "#"
      || normalizePath pattern (DetectSchemaType pattern) == ">") = true
  · exfalso
    have hnp : normalizePath pattern (DetectSchemaType pattern) = "#" ∨
        normalizePath pattern (DetectSchemaType pattern) = ">" := by
      simpa only [Bool.or_eq_true, beq_iff_eq] using hsp
    have hone : (splitStr (separator (DetectSchemaType pattern))
        (normalizePath pattern (DetectSchemaType pattern))).length = 1 := by
      rcases hnp with h' | h' <;> rw [h'] <;> cases DetectSchemaType pattern <;> decide
    rw [hsplit] at hone
    simp [List.length_append] at hone
    exact hsuf (List.length_eq_zero.mp (by omega))
  · have hc : (normalizePath pattern (DetectSchemaType pattern) == "#"
        || normalizePath pattern (DetectSchemaType pattern) == ">") = false := by
      simpa using hsp
    simp only [Match, hc, Bool.false_eq_true, if_false]
    rw [hsplit]
    exact matchParts_multi_not_last (DetectSchemaType pattern) pre suf hsuf _

/-- Witness for C7 at a concrete input: `"a/#/b"` has `#` as its middle
segment and rejects the path `"a/x"`. -/
theorem c7_witness :
    ((["b"] : List String) ≠ []) ∧ Match "a/#/b" "a/x" = false :=
  ⟨by decide,
    c7_multi_wildcard_not_last "a/#/b"
      ⟨["a"], ["b"], by decide, by decide⟩ "a/x"⟩

/-- A pattern consisting of a wildcard-free prefix followed by the
multi-level wildcard matches every path whose segments extend that prefix:
each prefix segment matches itself (or is the single-level wildcard), and
the final wildcard consumes whatever remains, including nothing. -/
theorem matchParts_with_trailing_multi (st : SchemaType) :
    ∀ pre : List String, multiWildcard st ∉ pre →
      ∀ rest, matchParts st (pre ++ [multiWildcard st]) (pre ++ rest) = true := by
  intro pre
  induction pre with
  | nil =>
    intro _ rest
    simp [matchParts]
  | cons a pre ih =>
    intro hpre rest
    rw [List.mem_cons, not_or] at hpre
    obtain ⟨ha, hpre'⟩ := hpre
    simp only [List.cons_append, matchParts]
    have ha' : (a == multiWildcard st) = false := by
      simp
      exact fun e => ha e.symm
    simp only [ha', Bool.false_eq_true, if_false]
    have hself : (a == singleWildcard st || a == a) = true := by simp
    simp only [hself, if_true]
    exact ih hpre' rest

/-- Claim C8: a pattern ending in the multi-level wildcard matches every
path whose segment list starts with the pattern's wildcard-free prefix
segments — including the path whose segments are exactly that prefix. -/
theorem c8_trailing_multi_wildcard (pattern path : String)
    (h : ∃ pre rest,
        multiWildcard (DetectSchemaType pattern) ∉ pre ∧
        splitStr (separator (DetectSchemaType pattern))
            (normalizePath pattern (DetectSchemaType pattern))
          = pre ++ [multiWildcard (DetectSchemaType pattern)] ∧
        splitStr (separator (DetectSchemaType pattern))
            (normalizePath path (DetectSchemaType pattern))
          = pre ++ rest) :
    Match pattern path = true := by
  obtain ⟨pre, rest, hpre, hpat, hpath⟩ := h
  by_cases hsp : (normalizePath pattern (DetectSchemaType pattern) == "#"
      || normalizePath pattern (DetectSchemaType pattern) == ">") = true
  · simp [Match, hsp]
  · have hc : (normalizePath pattern (DetectSchemaType pattern) == "#"
        || normalizePath pattern (DetectSchemaType pattern) == ">") = false := by
      simpa using hsp
    simp only [Match, hc, Bool.false_eq_true, if_false]
    rw [hpat, hpath]
    exact matchParts_with_trailing_multi (DetectSchemaType pattern) pre hpre rest

/-- Witness for C8 at a concrete input: `"a/b/#"` matches the bare prefix
path `"a/b"` (the wildcard consumes zero segments). -/
theorem c8_witness :
    (("#" : String) ∉ (["a", "b"] : List String)) ∧ Match "a/b/#" "a/b" = true :=
  ⟨by decide,
    c8_trailing_multi_wildcard "a/b/#" "a/b"
      ⟨["a", "b"], [], by decide, by decide, by decide⟩⟩

end ApiGateway
